import Mathlib

set_option maxRecDepth 10000

namespace SvgCrawler

/-! # Shallow embedding of the Temenos TLC Engine SVG crawler

Definitions are translated from `temenos_svg_crawler.py` (the crawler class)
and `test_breadcrumb_structure.py` (the standalone breadcrumb parser).
Strings are modelled as Lean `String` and manipulated through their
underlying `List Char`; Python lists/sets of URLs are modelled as
`List String` (the source only ever uses membership, pop-front and append,
all of which are order-faithful on a list).
-/

/-- The character class of `re.sub(r'[<>:"/\\|?*]', '_', filename)`
(`sanitize_filename`, line 304): characters illegal in filesystem names. -/
def illegalFsChar (c : Char) : Bool :=
  c = '<' || c = '>' || c = ':' || c = '\"' || c = '/' || c = '\\' ||
  c = '|' || c = '?' || c = '*'

/-- ASCII whitespace, the `\s` class of `re.sub(r'\s+', '_', filename)`
(line 305) restricted to ASCII (the crawler only ever feeds it page
titles and hrefs). -/
def pyWs (c : Char) : Bool :=
  c = ' ' || c = '\t' || c = '\n' || c = '\r' || c = '\x0b' || c = '\x0c'

/-- `re.sub(r'[<>:"/\\|?*]', '_', ·)` on the character list: every illegal
character is replaced by an underscore. -/
def replaceIllegal (l : List Char) : List Char :=
  l.map (fun c => if illegalFsChar c then '_' else c)

/-- Worker for `re.sub(r'\s+', '_', ·)`: the flag records whether the
previous character was whitespace, so that a maximal whitespace run
contributes exactly one underscore. -/
def collapseWsAux : Bool → List Char → List Char
  | _, [] => []
  | prevWs, c :: cs =>
    if pyWs c then
      if prevWs then collapseWsAux true cs else '_' :: collapseWsAux true cs
    else
      c :: collapseWsAux false cs

/-- `re.sub(r'\s+', '_', ·)`: each maximal run of whitespace becomes a
single underscore. -/
def collapseWs (l : List Char) : List Char :=
  collapseWsAux false l

/-- Removes the maximal trailing run of characters satisfying `p`
(the right half of Python `str.strip(chars)`). -/
def dropTrailing (p : Char → Bool) : List Char → List Char
  | [] => []
  | c :: cs =>
    match dropTrailing p cs with
    | [] => if p c then [] else [c]
    | r => c :: r

/-- Python `str.strip(chars)`: drop the maximal leading and trailing runs
of characters satisfying `p`. -/
def pyStripChars (p : Char → Bool) (l : List Char) : List Char :=
  dropTrailing p (l.dropWhile p)

/-- The strip class of `filename.strip('._')` (line 306). -/
def dotUnderscore (c : Char) : Bool :=
  c = '.' || c = '_'

/-- The character list `sanitize_filename` produces before the final
truncation `[:200]`: replace illegal characters with `_`, collapse
whitespace runs to `_`, strip leading/trailing `.` and `_`. -/
def sanitizeUntruncated (s : String) : List Char :=
  pyStripChars dotUnderscore (collapseWs (replaceIllegal s.data))

/-- `sanitize_filename` (`temenos_svg_crawler.py` lines 301-307):
replace illegal characters with `_`, collapse whitespace runs to `_`,
strip leading/trailing `.` and `_`, truncate to 200 characters. -/
def sanitize_filename (s : String) : String :=
  String.mk ((sanitizeUntruncated s).take 200)

/-! ## Content classifier (`is_process_map_svg`, lines 246-269)

The source parses `svg_content` with `xml.etree.ElementTree.fromstring`
(an external library).  We model the parse result of a fragment as an
explicit attribute/children tree carried alongside the raw markup: a
fragment whose `parsed` field is `none` is one on which `ET.fromstring`
raises (the `except` branch of `is_process_map_svg`). -/

mutual

/-- A parsed XML element: attribute list plus child elements, the shape
`ElementTree` exposes to `is_process_map_svg`. -/
inductive XMLElem where
  | node (attrs : List (String × String)) (children : XMLForest)

/-- A sequence of sibling elements (the children list of a node). -/
inductive XMLForest where
  | nil
  | cons (hd : XMLElem) (tl : XMLForest)

end

mutual

/-- `len(list(root.iter()))` (line 262): `Element.iter()` yields the
element itself followed by all of its descendants, so the count is
`1 +` the node counts of the children. -/
def XMLElem.iterCount : XMLElem → Nat
  | .node _ cs => 1 + XMLForest.nodeCount cs

/-- Total node count of a forest. -/
def XMLForest.nodeCount : XMLForest → Nat
  | .nil => 0
  | .cons c cs => XMLElem.iterCount c + XMLForest.nodeCount cs

end

/-- Builds a children forest from a list literal. -/
def XMLForest.ofList : List XMLElem → XMLForest
  | [] => .nil
  | c :: cs => .cons c (XMLForest.ofList cs)

/-- A forest of `n` copies of `e`. -/
def XMLForest.replicate : Nat → XMLElem → XMLForest
  | 0, _ => .nil
  | n + 1, e => .cons e (XMLForest.replicate n e)

/-- The number of strict descendant nodes of an element (the quantity the
spec calls `element_count`: "total descendant nodes"). -/
def XMLElem.descendants (e : XMLElem) : Nat :=
  e.iterCount - 1

def XMLElem.attrList : XMLElem → List (String × String)
  | .node a _ => a

/-- `root.attrib.get(key, '')`: first binding of `key`, defaulting to the
empty string. -/
def getAttrD (e : XMLElem) (key : String) : String :=
  match e.attrList.find? (fun p => p.1 == key) with
  | some p => p.2
  | none => ""

/-- `val.replace('px', '')`: delete every (non-overlapping, left-to-right)
occurrence of the two-character substring `px`. -/
def removePx : List Char → List Char
  | [] => []
  | 'p' :: 'x' :: rest => removePx rest
  | c :: rest => c :: removePx rest

/-- Value of a digit string read in base 10. -/
def digitsToNat (l : List Char) : Nat :=
  l.foldl (fun n c => 10 * n + (c.toNat - '0'.toNat)) 0

/-- Truncation toward zero of `sign * (ip.fp) * 10^ex`, the value
`int(float(...))` produces for a decimal literal with integer part `ip`,
fractional part `fp` and decimal exponent `ex`. -/
def decTrunc (sign : Int) (ip fp : List Char) (ex : Int) : Int :=
  let num : Nat := digitsToNat ip * 10 ^ fp.length + digitsToNat fp
  let k : Int := (fp.length : Int)
  let mag : Nat :=
    if k ≤ ex then num * 10 ^ (ex - k).toNat
    else num / 10 ^ (k - ex).toNat
  sign * (mag : Int)

/-- Exponent suffix of a float literal: optional sign then digits,
nothing after. -/
def parseExpPart (sign : Int) (ip fp : List Char) (r : List Char) : Option Int :=
  let es : Int × List Char :=
    match r with
    | '+' :: t => (1, t)
    | '-' :: t => (-1, t)
    | t => (1, t)
  let ed := es.2.takeWhile Char.isDigit
  let rest := es.2.dropWhile Char.isDigit
  if ed.isEmpty || !rest.isEmpty then none
  else some (decTrunc sign ip fp (es.1 * (digitsToNat ed : Int)))

/-- `int(float(l))` on a character list: `none` when `float` rejects the
string (then the caller's `except` yields 0).  Models the decimal-literal
grammar of `float` (optional sign, digits with optional fraction,
optional exponent, surrounding whitespace) with exact rational
truncation; double rounding, digit-group underscores and overflow to
infinity do not occur on the dimension strings the crawler meets. -/
def parseFloatTrunc (l0 : List Char) : Option Int :=
  let t := pyStripChars pyWs l0
  let s : Int × List Char :=
    match t with
    | '+' :: r => (1, r)
    | '-' :: r => (-1, r)
    | r => (1, r)
  let ip := s.2.takeWhile Char.isDigit
  let r1 := s.2.dropWhile Char.isDigit
  let fpr : List Char × List Char :=
    match r1 with
    | '.' :: r => (r.takeWhile Char.isDigit, r.dropWhile Char.isDigit)
    | r => ([], r)
  if ip.isEmpty && fpr.1.isEmpty then none
  else
    match fpr.2 with
    | [] => some (decTrunc s.1 ip fpr.1 0)
    | 'e' :: r => parseExpPart s.1 ip fpr.1 r
    | 'E' :: r => parseExpPart s.1 ip fpr.1 r
    | _ => none

/-- `parse_dim` (lines 254-258): strip `px`, coerce with `int(float(·))`,
return 0 on any failure. -/
def parse_dim (val : String) : Int :=
  match parseFloatTrunc (removePx val.data) with
  | some i => i
  | none => 0

/-- One vector-graphic fragment pulled from a page: its serialized markup
(`outerHTML`) together with the result `ET.fromstring` would produce on
it (`none` when parsing raises). -/
structure SVGFragment where
  content : String
  parsed : Option XMLElem

/-- `is_process_map_svg` (lines 246-269): a fragment is a process map iff
its root parses and either a parsed dimension exceeds 300 or
`len(list(root.iter()))` exceeds 20; parse failure classifies as
icon/image. -/
def is_process_map_svg (frag : SVGFragment) : Bool :=
  match frag.parsed with
  | none => false
  | some root =>
    let w := parse_dim (getAttrD root "width")
    let h := parse_dim (getAttrD root "height")
    let numElements := root.iterCount
    (w > 300 || h > 300) || numElements > 20

/-! ## Path resolver (`parse_section_from_breadcrumb`,
`test_breadcrumb_structure.py` lines 14-51) -/

/-- `re.match(r'^(\d+)\.\s+(.+)$', item.strip())`: after stripping, a
nonempty digit run, a literal dot, a nonempty whitespace run, then a
nonempty remainder (which, because `.` does not match newlines and the
stripped string cannot end in whitespace, must contain no newline).
Returns the two capture groups. -/
def matchNumberedLabel (item : String) : Option (String × String) :=
  let t := pyStripChars pyWs item.data
  let ds := t.takeWhile Char.isDigit
  let r1 := t.dropWhile Char.isDigit
  if ds.isEmpty then none
  else
    match r1 with
    | '.' :: r2 =>
      let ws := r2.takeWhile pyWs
      let r3 := r2.dropWhile pyWs
      if ws.isEmpty || r3.isEmpty || r3.contains '\n' then none
      else some (String.mk ds, String.mk r3)
    | _ => none

/-- `text.replace(' ', '_')`. -/
def underscoreSpaces (s : String) : String :=
  String.mk (s.data.map (fun c => if c = ' ' then '_' else c))

/-- `text.replace('.', '')`. -/
def removePeriods (s : String) : String :=
  String.mk (s.data.filter (fun c => c != '.'))

/-- `re.search(r'(\d+)', s)`: the first maximal digit run, if any. -/
def firstDigitRun (s : String) : Option String :=
  let t := s.data.dropWhile (fun c => !c.isDigit)
  if t.isEmpty then none else some (String.mk (t.takeWhile Char.isDigit))

/-- Python substring containment `needle in hay`. -/
def containsSub (needle : List Char) : List Char → Bool
  | [] => needle.isEmpty
  | c :: cs => needle.isPrefixOf (c :: cs) || containsSub needle cs

/-- Python `s.startswith(t)`. -/
def pyStartsWith (s t : String) : Bool :=
  List.isPrefixOf t.data s.data

/-- Python `s.endswith(t)`. -/
def pyEndsWith (s t : String) : Bool :=
  List.isPrefixOf t.data.reverse s.data.reverse

/-- `parse_section_from_breadcrumb` (`test_breadcrumb_structure.py`
lines 14-51), the spec's Path Resolver: fewer than two crumbs yields
`("Library", None)`; otherwise the first numbered label anywhere in the
trail wins; otherwise the crumb at index 1 is used, with a digit run
extracted when the crumb mentions `Processes`.  The second component is
the `section_name` the source returns alongside the folder. -/
def parse_section_from_breadcrumb (bc : List String) : String × Option String :=
  if bc.length < 2 then ("Library", none)
  else
    match bc.findSome? matchNumberedLabel with
    | some nm =>
      (nm.1 ++ "_" ++ underscoreSpaces nm.2, some nm.2)
    | none =>
      let sectionText := bc.getD 1 ""
      if containsSub "Processes".data sectionText.data then
        match firstDigitRun sectionText with
        | some num =>
          (num ++ "_" ++ removePeriods (underscoreSpaces sectionText), some sectionText)
        | none => (removePeriods (underscoreSpaces sectionText), some sectionText)
      else (removePeriods (underscoreSpaces sectionText), some sectionText)

/-! ## Artifact store and run log (`save_svg_file`, `save_crawl_log`) -/

/-- One record of `self.process_log` (the JSON `processes` entries).
The JSON key `section` is `sect` here (`section` is a Lean keyword). -/
structure LogEntry where
  sect : String
  page_title : String
  breadcrumb : String
  url : String
  file_path : Option String
  svg_size : Nat
  status : String

/-- The crawler's mutable run state: the two counters, the in-memory run
log, and the sequence of performed file writes `(path, content)` (the
filesystem effect of `save_svg_file`, recorded in write order). -/
structure CrawlerState where
  extracted_count : Nat
  failed_count : Nat
  process_log : List LogEntry
  saves : List (String × String)

/-- Counters zero, no log entries, nothing written (`__init__`,
lines 41-43). -/
def initCrawlerState : CrawlerState :=
  ⟨0, 0, [], []⟩

/-- Lines 317-319 of `save_svg_file`: re-sanitize the filename and append
`.svg` when absent. -/
def saveFileName (filename : String) : String :=
  let safe := sanitize_filename filename
  if pyEndsWith safe ".svg" then safe else safe ++ ".svg"

/-- `self.output_dir / section_path / safe_filename` as a string
(`pathlib` joins with `/`). -/
def mkSavePath (outputDir folder safe : String) : String :=
  outputDir ++ "/" ++ folder ++ "/" ++ safe

/-- `save_svg_file` (lines 309-333).  `ioOk` is the filesystem oracle: it
answers whether the directory creation and write for a path succeed; the
`except` branch (any I/O error) increments `failed_count` and returns
`None`, the success branch increments `extracted_count` and returns the
final path.  The folder component is used verbatim; only the filename is
sanitized. -/
def save_svg_file (outputDir : String) (ioOk : String → Bool) (st : CrawlerState)
    (svg_content section_path filename : String) : CrawlerState × Option String :=
  let safe := saveFileName filename
  let path := mkSavePath outputDir section_path safe
  if ioOk path then
    ({ st with
        extracted_count := st.extracted_count + 1,
        saves := st.saves ++ [(path, svg_content)] }, some path)
  else
    ({ st with failed_count := st.failed_count + 1 }, none)

/-- `section_name` or `os.path.join(section_name, sub_section)`
(lines 289-291). -/
def joinFolder (section_name : String) (sub_section : Option String) : String :=
  match sub_section with
  | some sub => section_name ++ "/" ++ sub
  | none => section_name

/-- `extract_all_svgs_from_page` (lines 271-299): every fragment on the
page that classifies as a process map is saved under
`section_name[/sub_section]` with filename `sanitize(page_title) + ".svg"`;
other fragments are ignored.  The unused `prefix` argument of the source
is dropped; the run log is untouched. -/
def extract_all_svgs_from_page (outputDir : String) (ioOk : String → Bool)
    (st : CrawlerState) (page_title section_name : String)
    (sub_section : Option String) (svgList : List SVGFragment) : CrawlerState :=
  svgList.foldl
    (fun s frag =>
      if is_process_map_svg frag then
        (save_svg_file outputDir ioOk s frag.content (joinFolder section_name sub_section)
          (sanitize_filename page_title ++ ".svg")).1
      else s)
    st

/-- `extract_svg_from_page` (lines 206-244): the in-page script keeps the
fragment with the largest serialized size (strictly-larger wins, so the
first of equals is kept) and returns it only when that size exceeds 1000
characters. -/
def extract_svg_from_page (svgList : List SVGFragment) : Option String :=
  let best :=
    svgList.foldl
      (fun acc frag =>
        if frag.content.length > acc.2 then (some frag.content, frag.content.length) else acc)
      ((none : Option String), 0)
  match best.1 with
  | some b => if best.2 > 1000 then some b else none
  | none => none

/-- A landed page as the Browsing Session exposes it to the engine:
title, the stripped nonempty breadcrumb texts, the fragment list the
extraction script returns, and the hrefs of all anchors. -/
structure Page where
  title : String
  breadcrumb : List String
  svgs : List SVGFragment
  links : List String

/-- `crawl_process_page` (lines 335-387): extract the largest fragment;
on content, save it under the sanitized section title and append a
`success` log entry recording the save result; on no content, append a
`no_svg` entry.  Exactly one entry is appended per (non-exceptional)
call. -/
def crawl_process_page (outputDir : String) (ioOk : String → Bool) (st : CrawlerState)
    (sectionTitle : String) (page : Page) (url : String) : CrawlerState × Bool :=
  let joined := String.intercalate " > " page.breadcrumb
  let bcrumb := if joined = "" then page.title else joined
  match extract_svg_from_page page.svgs with
  | some svg =>
    let section_name := sanitize_filename sectionTitle
    let filename := sanitize_filename page.title
    let res := save_svg_file outputDir ioOk st svg section_name filename
    ({ res.1 with
        process_log := res.1.process_log ++
          [⟨sectionTitle, page.title, bcrumb, url, res.2, svg.length, "success"⟩] }, true)
  | none =>
    ({ st with
        process_log := st.process_log ++
          [⟨sectionTitle, page.title, bcrumb, url, none, 0, "no_svg"⟩] }, false)

/-- A top-level section as Strategy A sees it: its visible title, the
overview page behind its click, and the process pages behind the
section's process links (the DOM re-location dance of lines 404-418 is
abstracted to this fixed sequence). -/
structure SectionInfo where
  title : String
  overview : Page
  processes : List Page

/-- `process_links[:max_processes]` when a cap is given (lines 401-402). -/
def takeMaybe (cap : Option Nat) (l : List Page) : List Page :=
  match cap with
  | some m => l.take m
  | none => l

/-- `crawl_section` (lines 389-425): extract all process-map fragments
from the overview page, then from each (optionally capped) process page,
all under the sanitized section title.  No log entry is appended
anywhere on this path. -/
def crawl_section (outputDir : String) (ioOk : String → Bool) (st : CrawlerState)
    (sec : SectionInfo) (max_processes : Option Nat) : CrawlerState :=
  let section_name := sanitize_filename sec.title
  let st1 := extract_all_svgs_from_page outputDir ioOk st sec.overview.title section_name none
    sec.overview.svgs
  (takeMaybe max_processes sec.processes).foldl
    (fun s p =>
      extract_all_svgs_from_page outputDir ioOk s p.title section_name none p.svgs)
    st1

/-- The `summary` object of the persisted report (lines 655-659). -/
structure RunSummary where
  extracted_count : Nat
  failed_count : Nat
  total_processed : Nat

/-- The persisted crawl report (lines 649-666). -/
structure Report where
  summary : RunSummary
  processes : List LogEntry

/-- `save_crawl_log` (lines 649-666): `total_processed` is the length of
the in-memory log and `processes` is that log. -/
def save_crawl_log (st : CrawlerState) : Report :=
  ⟨⟨st.extracted_count, st.failed_count, st.process_log.length⟩, st.process_log⟩

/-- `run_sample_crawl` (lines 427-467): crawl the first `max_sections`
sections with the per-section process cap, then persist the report. -/
def run_sample_crawl (outputDir : String) (ioOk : String → Bool)
    (sections : List SectionInfo) (max_sections max_processes_per_section : Nat) :
    CrawlerState × Report :=
  let st := (sections.take max_sections).foldl
    (fun s sec => crawl_section outputDir ioOk s sec (some max_processes_per_section))
    initCrawlerState
  (st, save_crawl_log st)

/-- `run_full_crawl` (lines 469-508): crawl every section uncapped, then
persist the report. -/
def run_full_crawl (outputDir : String) (ioOk : String → Bool)
    (sections : List SectionInfo) : CrawlerState × Report :=
  let st := sections.foldl (fun s sec => crawl_section outputDir ioOk s sec none) initCrawlerState
  (st, save_crawl_log st)

/-- The number of pages on which `run_sample_crawl` attempts extraction:
one overview per taken section plus each taken process page (each is one
`extract_all_svgs_from_page` call, the drill-down notion of a page-visit
attempt). -/
def samplePagesAttempted (sections : List SectionInfo)
    (max_sections max_processes : Nat) : Nat :=
  ((sections.take max_sections).map
    (fun sec => 1 + (sec.processes.take max_processes).length)).sum

/-! ## Breadth-first strategies (`crawl_entire_site`,
`crawl_library_recursively`) -/

/-- The traversal state of the two while-loops: crawler effects plus
`visited`, `queue` (in order) and `page_count`. -/
structure BFSState where
  crawler : CrawlerState
  visited : List String
  queue : List String
  page_count : Nat

/-- Lines 616-617: the section/subsection Strategy C stores a page under
are the raw breadcrumb elements at indices 1 and 2, defaulting to
`"Library"`/`None`. -/
def librarySectionOf (bc : List String) : String × Option String :=
  (if bc.length > 1 then bc.getD 1 "" else "Library",
   if bc.length > 2 then some (bc.getD 2 "") else none)

/-- The enqueue condition of lines 627-630: the href contains `/Library`
or `/Content/`, or starts with `queue[0]` (the front of the live queue,
falling back to the current URL when the queue is empty); and it is in
neither `visited` nor `queue`. -/
def libEnqueueCond (visited queue : List String) (currentUrl href : String) : Bool :=
  (containsSub "/Library".data href.data || containsSub "/Content/".data href.data ||
    pyStartsWith href (match queue with | [] => currentUrl | q0 :: _ => q0)) &&
  !visited.contains href && !queue.contains href

/-- Processing of one discovered link in Strategy C (lines 622-633):
falsy hrefs are skipped, qualifying hrefs are appended to the queue. -/
def libProcessLink (visited : List String) (currentUrl : String)
    (queue : List String) (href : String) : List String :=
  if href != "" && libEnqueueCond visited queue currentUrl href then queue ++ [href]
  else queue

/-- The `try` body of one Strategy C loop iteration (lines 609-635),
entered after the popped `url` has been added to `visited`: `none` from
`site` is a navigation error (the `except` path: nothing else changes and
`page_count` stays); otherwise extract under the raw breadcrumb
section/subsection, fold the page links through the enqueue filter, and
bump `page_count`. -/
def libraryVisitPage (outputDir : String) (ioOk : String → Bool)
    (site : String → Option Page) (st : BFSState) (url : String) : BFSState :=
  match site url with
  | none => st
  | some page =>
    let ss := librarySectionOf page.breadcrumb
    let c := extract_all_svgs_from_page outputDir ioOk st.crawler page.title ss.1 ss.2 page.svgs
    let q := page.links.foldl (fun q href => libProcessLink st.visited url q href) st.queue
    { crawler := c, visited := st.visited, queue := q, page_count := st.page_count + 1 }

/-- The enqueue condition of Strategy B (line 549): truthy href, same
site origin, and in neither `visited` nor `queue`.  `netlocOf` models
`urlparse(·).netloc`. -/
def siteEnqueueCond (netlocOf : String → String) (domain : String)
    (visited queue : List String) (href : String) : Bool :=
  href != "" && netlocOf href == domain && !visited.contains href && !queue.contains href

/-- Processing of one discovered link in Strategy B (lines 546-552). -/
def siteProcessLink (netlocOf : String → String) (domain : String)
    (visited : List String) (queue : List String) (href : String) : List String :=
  if siteEnqueueCond netlocOf domain visited queue href then queue ++ [href] else queue

/-- The `try` body of one Strategy B loop iteration (lines 538-557):
extraction under the constant `"sitewide"` bucket, then same-origin link
discovery. -/
def siteVisitPage (outputDir : String) (ioOk : String → Bool) (site : String → Option Page)
    (netlocOf : String → String) (domain : String) (st : BFSState) (url : String) : BFSState :=
  match site url with
  | none => st
  | some page =>
    let c := extract_all_svgs_from_page outputDir ioOk st.crawler page.title "sitewide" none
      page.svgs
    let q := page.links.foldl
      (fun q href => siteProcessLink netlocOf domain st.visited q href) st.queue
    { crawler := c, visited := st.visited, queue := q, page_count := st.page_count + 1 }

/-- One iteration of the shared while-loop of Strategies B and C
(lines 533-557 and 604-638): `none` when the loop exits (empty queue or
page budget spent); otherwise pop the front, skip it when already
visited, else record it visited and run the strategy's visit body. -/
def bfsStep (maxPages : Nat) (visit : BFSState → String → BFSState)
    (st : BFSState) : Option BFSState :=
  match st.queue with
  | [] => none
  | url :: rest =>
    if st.page_count < maxPages then
      some (if st.visited.contains url then { st with queue := rest }
        else visit { st with queue := rest, visited := st.visited ++ [url] } url)
    else none

/-- The while-loop itself: iterate `bfsStep` until it exits.  `fuel`
bounds the number of iterations; `bfsLoop_fuel_stable` shows a run that
has reached the loop's real exit condition is unchanged by additional
fuel, so a concrete run evaluated with ample fuel is the run of the
unbounded loop. -/
def bfsLoop (maxPages : Nat) (visit : BFSState → String → BFSState) :
    Nat → BFSState → BFSState
  | 0, st => st
  | fuel + 1, st =>
    match bfsStep maxPages visit st with
    | none => st
    | some st2 => bfsLoop maxPages visit fuel st2

/-- The exit condition of the while-loops. -/
def bfsDone (maxPages : Nat) (st : BFSState) : Prop :=
  st.queue = [] ∨ maxPages ≤ st.page_count

instance (maxPages : Nat) (st : BFSState) : Decidable (bfsDone maxPages st) := by
  unfold bfsDone; infer_instance

/-- `crawl_entire_site` (lines 510-566): seed with the post-login URL,
run the sitewide loop, persist the report.  `domain` is
`urlparse(base_url).netloc`. -/
def crawl_entire_site (outputDir : String) (ioOk : String → Bool)
    (site : String → Option Page) (netlocOf : String → String) (baseUrl startUrl : String)
    (maxPages fuel : Nat) : BFSState × Report :=
  let final := bfsLoop maxPages (siteVisitPage outputDir ioOk site netlocOf (netlocOf baseUrl))
    fuel ⟨initCrawlerState, [], [startUrl], 0⟩
  (final, save_crawl_log final.crawler)

/-- `crawl_library_recursively` (lines 568-647): seed with the URL after
entering the Library, run the library-scoped loop, persist the report. -/
def crawl_library_recursively (outputDir : String) (ioOk : String → Bool)
    (site : String → Option Page) (startUrl : String) (maxPages fuel : Nat) :
    BFSState × Report :=
  let final := bfsLoop maxPages (libraryVisitPage outputDir ioOk site) fuel
    ⟨initCrawlerState, [], [startUrl], 0⟩
  (final, save_crawl_log final.crawler)

/-- The no-duplicate-visit invariant of the BFS strategies: each URL was
navigated at most once, the queue holds no duplicates, and the queue is
disjoint from the visited set. -/
def BFSInv (st : BFSState) : Prop :=
  st.visited.Nodup ∧ st.queue.Nodup ∧ ∀ u ∈ st.queue, u ∉ st.visited

instance (st : BFSState) : Decidable (BFSInv st) := by
  unfold BFSInv; infer_instance

/-- Modelled from the spec: the enqueue filter the spec states for
Strategy C — the link must be in neither Visited nor Frontier, and must
contain a library- or content-area marker or share a prefix with the
*most-recently-enqueued* frontier URL (the back of the queue; read with
the same current-URL fallback the code uses when the frontier is
empty).  Compare with `libEnqueueCond`, which tests against the *front*
of the queue. -/
def specLibEnqueueCond (visited queue : List String) (currentUrl href : String) : Bool :=
  (containsSub "/Library".data href.data || containsSub "/Content/".data href.data ||
    pyStartsWith href (match queue.getLast? with | none => currentUrl | some l => l)) &&
  !visited.contains href && !queue.contains href

/-! ## Concrete data used by counterexamples and witnesses -/

/-- A large, sparse parsed fragment: `width="500" height="400"`, no
children. -/
def wideElem : XMLElem :=
  .node [("width", "500"), ("height", "400")] .nil

/-- A small but dense parsed fragment: both dimensions 100, exactly 20
strict descendant nodes. -/
def dense20Elem : XMLElem :=
  .node [("width", "100"), ("height", "100")]
    (XMLForest.replicate 20 (.node [] .nil))

/-- The dense fragment as found on a page. -/
def dense20Frag : SVGFragment :=
  ⟨"<svg width=100 height=100>icons</svg>", some dense20Elem⟩

/-- The wide fragment as found on a page. -/
def wideFrag : SVGFragment :=
  ⟨"<svg width=500 height=400>map</svg>", some wideElem⟩

/-- A single Library page carrying one process-map fragment and no
links. -/
def onePageLib : Page :=
  { title := "Some Process"
    breadcrumb := ["Library", "0. Customer Relationship Management Processes", "Some Process"]
    svgs := [wideFrag]
    links := [] }

/-- A one-page site for a completed library run: only
`"lib/start"` resolves. -/
def oneSiteLib : String → Option Page :=
  fun u => if u = "lib/start" then some onePageLib else none

/-- A second copy of the one-page site used by the Strategy C path
counterexample (a page whose process-map fragment gets stored). -/
def onePageLibB : Page :=
  { title := "Another Process"
    breadcrumb := ["Library", "0. Customer Relationship Management Processes", "Another Process"]
    svgs := [wideFrag]
    links := [] }

def oneSiteLibB : String → Option Page :=
  fun u => if u = "lib/startB" then some onePageLibB else none

/-- A page whose only link starts with the most-recently-enqueued queue
entry `"B/"` but not with the queue front `"A/"` and carries no
library/content marker. -/
def linkPageC7 : Page :=
  { title := "Hub"
    breadcrumb := ["Library"]
    svgs := []
    links := ["B/x"] }

/-- Mid-run Strategy C state for the enqueue-filter counterexample:
`"hub"` was just popped and recorded visited, two URLs are pending. -/
def stateC7 : BFSState :=
  { crawler := initCrawlerState
    visited := ["hub"]
    queue := ["A/", "B/"]
    page_count := 1 }

def siteC7 : String → Option Page :=
  fun u => if u = "hub" then some linkPageC7 else none

/-- A section with one process page, both overview and process page
showing one process-map fragment each (Strategy A data). -/
def sectionC4 : SectionInfo :=
  { title := "0. Test Processes"
    overview := { title := "Overview", breadcrumb := [], svgs := [wideFrag], links := [] }
    processes := [{ title := "Proc One", breadcrumb := [], svgs := [wideFrag], links := [] }] }

/-- 199 `a`s, an underscore, then `b`: sanitization strips nothing, but
the 200-character truncation cuts the final `b` and re-exposes a
trailing underscore. -/
def truncTrap : String :=
  String.mk (List.replicate 199 'a' ++ ['_', 'b'])

/-! ## Supporting lemmas -/

theorem mem_replaceIllegal_not_illegal {l : List Char} {c : Char}
    (h : c ∈ replaceIllegal l) : illegalFsChar c = false := by
  rcases List.mem_map.mp h with ⟨a, _, rfl⟩
  cases ha : illegalFsChar a with
  | true => simp [ha, illegalFsChar]
  | false => simp [ha]

theorem mem_collapseWsAux {c : Char} :
    ∀ (b : Bool) (l : List Char), c ∈ collapseWsAux b l → c = '_' ∨ c ∈ l := by
  intro b l
  induction l generalizing b with
  | nil => simp [collapseWsAux]
  | cons d tl ih =>
    intro h
    by_cases hd : pyWs d = true
    · simp only [collapseWsAux, hd, if_true] at h
      cases b with
      | true =>
        rcases ih true h with h | h
        · exact Or.inl h
        · exact Or.inr (List.mem_cons_of_mem _ h)
      | false =>
        simp only [if_false, Bool.false_eq_true] at h
        rcases List.mem_cons.mp h with h | h
        · exact Or.inl h
        · rcases ih true h with h | h
          · exact Or.inl h
          · exact Or.inr (List.mem_cons_of_mem _ h)
    · simp only [collapseWsAux, hd, if_false, Bool.false_eq_true] at h
      rcases List.mem_cons.mp h with h | h
      · exact Or.inr (h ▸ List.mem_cons_self _ _)
      · rcases ih false h with h | h
        · exact Or.inl h
        · exact Or.inr (List.mem_cons_of_mem _ h)

theorem mem_collapseWsAux_not_ws {c : Char} :
    ∀ (b : Bool) (l : List Char), c ∈ collapseWsAux b l → pyWs c = false := by
  intro b l
  induction l generalizing b with
  | nil => simp [collapseWsAux]
  | cons d tl ih =>
    intro h
    by_cases hd : pyWs d = true
    · simp only [collapseWsAux, hd, if_true] at h
      cases b with
      | true => exact ih true h
      | false =>
        simp only [if_false, Bool.false_eq_true] at h
        rcases List.mem_cons.mp h with h | h
        · subst h; decide
        · exact ih true h
    · simp only [collapseWsAux, hd, if_false, Bool.false_eq_true] at h
      rcases List.mem_cons.mp h with h | h
      · subst h; simpa using hd
      · exact ih false h

theorem mem_dropTrailing {p : Char → Bool} {c : Char} :
    ∀ l, c ∈ dropTrailing p l → c ∈ l := by
  intro l
  induction l with
  | nil => simp [dropTrailing]
  | cons d tl ih =>
    intro h
    simp only [dropTrailing] at h
    cases hr : dropTrailing p tl with
    | nil =>
      rw [hr] at h
      by_cases hp : p d = true
      · simp [hp] at h
      · simp only [hp, if_false, Bool.false_eq_true] at h
        simp only [List.mem_singleton] at h
        exact h ▸ List.mem_cons_self _ _
    | cons x xs =>
      rw [hr] at h
      rcases List.mem_cons.mp h with h | h
      · exact h ▸ List.mem_cons_self _ _
      · exact List.mem_cons_of_mem _ (ih (hr ▸ h))

theorem head_dropWhile_not {p : Char → Bool} :
    ∀ (l : List Char) (c : Char), (l.dropWhile p).head? = some c → p c = false := by
  intro l
  induction l with
  | nil => simp
  | cons d tl ih =>
    intro c h
    by_cases hd : p d = true
    · rw [List.dropWhile_cons_of_pos hd] at h
      exact ih c h
    · rw [List.dropWhile_cons_of_neg hd] at h
      simp only [List.head?_cons, Option.some.injEq] at h
      subst h
      simpa using hd

theorem head_dropTrailing {p : Char → Bool} :
    ∀ (l : List Char) (c : Char), (dropTrailing p l).head? = some c → l.head? = some c := by
  intro l
  induction l with
  | nil => simp [dropTrailing]
  | cons d tl _ =>
    intro c h
    simp only [dropTrailing] at h
    cases hr : dropTrailing p tl with
    | nil =>
      rw [hr] at h
      by_cases hp : p d = true
      · simp [hp] at h
      · simp only [hp, if_false, Bool.false_eq_true] at h
        simp only [List.head?_cons, Option.some.injEq] at h
        simp [h]
    | cons x xs =>
      rw [hr] at h
      simp only [List.head?_cons, Option.some.injEq] at h
      simp [h]

theorem getLast_dropTrailing {p : Char → Bool} :
    ∀ (l : List Char) (c : Char), (dropTrailing p l).getLast? = some c → p c = false := by
  intro l
  induction l with
  | nil => simp [dropTrailing]
  | cons d tl ih =>
    intro c h
    simp only [dropTrailing] at h
    cases hr : dropTrailing p tl with
    | nil =>
      rw [hr] at h
      by_cases hp : p d = true
      · simp [hp] at h
      · simp only [hp, if_false, Bool.false_eq_true] at h
        simp only [List.getLast?_singleton, Option.some.injEq] at h
        subst h
        simpa using hp
    | cons x xs =>
      rw [hr] at h
      rw [List.getLast?_cons_cons] at h
      exact ih c (hr ▸ h)

theorem head_take200 (l : List Char) : (l.take 200).head? = l.head? := by
  cases l <;> rfl

theorem mem_sanitizeUntruncated {s : String} {c : Char}
    (h : c ∈ sanitizeUntruncated s) : c ∈ collapseWs (replaceIllegal s.data) := by
  unfold sanitizeUntruncated pyStripChars at h
  exact (List.dropWhile_sublist _).subset (mem_dropTrailing _ h)

/-- Every character of `sanitize_filename s` is neither an illegal
filesystem character nor whitespace. -/
theorem sanitize_filename_chars (s : String) :
    ∀ c ∈ (sanitize_filename s).data, illegalFsChar c = false ∧ pyWs c = false := by
  intro c hc
  have hc1 : c ∈ (sanitizeUntruncated s).take 200 := hc
  have hc2 : c ∈ sanitizeUntruncated s := List.take_subset _ _ hc1
  have hc3 : c ∈ collapseWs (replaceIllegal s.data) := mem_sanitizeUntruncated hc2
  refine ⟨?_, mem_collapseWsAux_not_ws false _ hc3⟩
  rcases mem_collapseWsAux false _ hc3 with h | h
  · subst h; decide
  · exact mem_replaceIllegal_not_illegal h

/-- The first character of `sanitize_filename s`, when there is one, is
neither `_` nor `.` (the leading strip survives truncation, which keeps
a prefix). -/
theorem sanitize_filename_head (s : String) :
    ∀ c, (sanitize_filename s).data.head? = some c → dotUnderscore c = false := by
  intro c h
  have h1 : ((sanitizeUntruncated s).take 200).head? = some c := h
  rw [head_take200] at h1
  have h2 : ((collapseWs (replaceIllegal s.data)).dropWhile dotUnderscore).head? = some c :=
    head_dropTrailing _ c h1
  exact head_dropWhile_not _ c h2

/-- When its input needs no truncation, `sanitize_filename` also ends in
neither `_` nor `.`. -/
theorem sanitize_filename_last (s : String)
    (hlen : (sanitizeUntruncated s).length ≤ 200) :
    ∀ c, (sanitize_filename s).data.getLast? = some c → dotUnderscore c = false := by
  intro c h
  have h1 : ((sanitizeUntruncated s).take 200).getLast? = some c := h
  rw [List.take_of_length_le hlen] at h1
  exact getLast_dropTrailing _ c h1

theorem XMLElem.iterCount_pos (e : XMLElem) : 1 ≤ e.iterCount := by
  cases e with
  | node a cs => exact Nat.le_add_right 1 _

/-! ## Claim C6 — filename sanitation -/

/-- C6 (amended): for every input string the output of
`sanitize_filename` contains none of the characters illegal in
filesystem names, no whitespace, is at most 200 characters long, and has
no leading underscore or period; it also has no trailing underscore or
period whenever the pre-truncation result fits in 200 characters — the
truncation to 200 runs after the trim and can re-expose a trailing `_`
or `.` (see the counterexample), which is the only part of the claim
that fails.  The spec's worked example `sanitize("Some/Bad:Name?.svg")`
satisfies all three claimed properties. -/
theorem c6_sanitize_filename_props (s : String) :
    (∀ c ∈ (sanitize_filename s).data, illegalFsChar c = false ∧ pyWs c = false) ∧
    (sanitize_filename s).data.length ≤ 200 ∧
    (∀ c, (sanitize_filename s).data.head? = some c → dotUnderscore c = false) ∧
    ((sanitizeUntruncated s).length ≤ 200 →
      ∀ c, (sanitize_filename s).data.getLast? = some c → dotUnderscore c = false) ∧
    ((sanitize_filename "Some/Bad:Name?.svg").data.all
        (fun c => !illegalFsChar c && !pyWs c) = true ∧
      (sanitize_filename "Some/Bad:Name?.svg").data.head? = some 'S' ∧
      (sanitize_filename "Some/Bad:Name?.svg").data.getLast? = some 'g' ∧
      (sanitize_filename "Some/Bad:Name?.svg").data.length ≤ 200) := by
  refine ⟨sanitize_filename_chars s, ?_, sanitize_filename_head s,
    sanitize_filename_last s, by decide⟩
  have h : ((sanitizeUntruncated s).take 200).length ≤ 200 := by
    rw [List.length_take]
    exact min_le_left _ _
  exact h

/-- C6 counterexample: for the 201-character input `truncTrap` (199 `a`s,
then `_`, then `b`) sanitization strips nothing, but the final
truncation to 200 characters cuts the `b` and leaves a trailing
underscore, refuting the claim's "no leading or trailing underscore or
period" for this input. -/
theorem c6_counterexample :
    (sanitize_filename truncTrap).data.getLast? = some '_' ∧
    (sanitize_filename truncTrap).data.length = 200 ∧
    (sanitizeUntruncated truncTrap).length = 201 := by decide

/-- C6 witness: the amended theorem applied at a concrete input. -/
theorem c6_witness : illegalFsChar 'a' = false ∧ pyWs 'a' = false :=
  (c6_sanitize_filename_props "a").1 'a' (by decide)

/-! ## Claim C2 — content classifier -/

/-- C2 (amended): for a fragment whose markup parses, the classifier
returns wanted whenever the parsed width exceeds 300, regardless of
element count; it returns not-wanted whenever the fragment has at most
19 descendant nodes and both parsed dimensions are at most 300; and the
decision rule is wanted iff (width > 300 or height > 300) or
element_count > 20, where element_count counts the fragment's *root plus
its descendant nodes* (`len(list(root.iter()))` = descendants + 1), not
the descendants alone. -/
theorem c2_classifier (frag : SVGFragment) (root : XMLElem)
    (hp : frag.parsed = some root) :
    (parse_dim (getAttrD root "width") > 300 → is_process_map_svg frag = true) ∧
    (root.descendants ≤ 19 → parse_dim (getAttrD root "width") ≤ 300 →
      parse_dim (getAttrD root "height") ≤ 300 → is_process_map_svg frag = false) ∧
    (is_process_map_svg frag = true ↔
      (parse_dim (getAttrD root "width") > 300 ∨ parse_dim (getAttrD root "height") > 300 ∨
        root.descendants + 1 > 20)) ∧
    root.iterCount = root.descendants + 1 := by
  have hc : root.descendants + 1 = root.iterCount :=
    Nat.sub_add_cancel root.iterCount_pos
  refine ⟨?_, ?_, ?_, hc.symm⟩
  · intro hw
    simp only [is_process_map_svg, hp]
    simp only [Bool.or_eq_true, decide_eq_true_eq]
    omega
  · intro hd hw hh
    simp only [is_process_map_svg, hp]
    simp only [Bool.or_eq_false_iff, decide_eq_false_iff_not]
    unfold XMLElem.descendants at hd
    omega
  · simp only [is_process_map_svg, hp]
    simp only [Bool.or_eq_true, decide_eq_true_eq]
    unfold XMLElem.descendants
    omega

/-- C2 counterexample: a fragment with exactly 20 descendant nodes and
both dimensions 100 is classified *wanted* (`root.iter()` counts the
root too, so the code's `num_elements` is 21 > 20), refuting the claim's
"not-wanted whenever the fragment has at most 20 descendant nodes and
both parsed dimensions are at most 300" and its reading of
`element_count` as the descendant count. -/
theorem c2_counterexample :
    dense20Frag.parsed = some dense20Elem ∧
    dense20Elem.descendants = 20 ∧
    parse_dim (getAttrD dense20Elem "width") ≤ 300 ∧
    parse_dim (getAttrD dense20Elem "height") ≤ 300 ∧
    is_process_map_svg dense20Frag = true :=
  ⟨rfl, by decide, by decide, by decide, by decide⟩

/-- C2 witness: the amended theorem applied to the wide fragment. -/
theorem c2_witness : is_process_map_svg wideFrag = true :=
  (c2_classifier wideFrag wideElem rfl).1 (by decide)

/-! ## Claim C8 — path resolver worked examples -/

/-- C8 (amended): the Path Resolver satisfies the spec's worked examples
on the folder (`section`) component, and the fewer-than-2-elements rule
exactly; but the second component it returns alongside the folder is the
raw section display name (`some "…"`), not `null`, for the two non-empty
examples. -/
theorem c8_path_resolver_examples :
    parse_section_from_breadcrumb
        ["Library", "0. Customer Relationship Management Processes", "Some Process"] =
      ("0_Customer_Relationship_Management_Processes",
        some "Customer Relationship Management Processes") ∧
    parse_section_from_breadcrumb ["Library", "Unknown Section"] =
      ("Unknown_Section", some "Unknown Section") ∧
    ∀ bc : List String, bc.length < 2 →
      parse_section_from_breadcrumb bc = ("Library", none) := by
  refine ⟨by decide, by decide, ?_⟩
  intro bc h
  unfold parse_section_from_breadcrumb
  rw [if_pos h]

/-- C8 counterexample: on `["Library", "Unknown Section"]` the resolver
does not return `{section: "Unknown_Section", subsection: null}` — the
second component is `some "Unknown Section"` (the source's
`section_name`), not `None`, exactly as the repository's own test
expectations record. -/
theorem c8_counterexample :
    parse_section_from_breadcrumb ["Library", "Unknown Section"] ≠
      ("Unknown_Section", none) := by decide

/-- C8 witness: the fewer-than-2-elements rule at both concrete
instances. -/
theorem c8_witness :
    parse_section_from_breadcrumb [] = ("Library", none) ∧
    parse_section_from_breadcrumb ["Library"] = ("Library", none) :=
  ⟨c8_path_resolver_examples.2.2 [] (by decide),
    c8_path_resolver_examples.2.2 ["Library"] (by decide)⟩

/-! ## Claim C9 — save never raises, exactly one counter moves -/

/-- C9 (confirmed): every call to `save_svg_file` is total (all failures
are converted to the `None` return value) and increments exactly one of
the two counters: on success `extracted_count` goes up by one and the
final file path is returned; on I/O failure `failed_count` goes up by
one and the failure value `None` is returned. -/
theorem c9_save_never_raises (outputDir : String) (ioOk : String → Bool)
    (st : CrawlerState) (svg folder filename : String) :
    (save_svg_file outputDir ioOk st svg folder filename).1.extracted_count +
        (save_svg_file outputDir ioOk st svg folder filename).1.failed_count =
      st.extracted_count + st.failed_count + 1 ∧
    (((save_svg_file outputDir ioOk st svg folder filename).2 =
          some (mkSavePath outputDir folder (saveFileName filename)) ∧
        (save_svg_file outputDir ioOk st svg folder filename).1.extracted_count =
          st.extracted_count + 1 ∧
        (save_svg_file outputDir ioOk st svg folder filename).1.failed_count =
          st.failed_count) ∨
      ((save_svg_file outputDir ioOk st svg folder filename).2 = none ∧
        (save_svg_file outputDir ioOk st svg folder filename).1.failed_count =
          st.failed_count + 1 ∧
        (save_svg_file outputDir ioOk st svg folder filename).1.extracted_count =
          st.extracted_count)) := by
  unfold save_svg_file
  by_cases h : ioOk (mkSavePath outputDir folder (saveFileName filename)) = true
  · simp only [h, if_true]
    refine ⟨by omega, Or.inl ?_⟩
    simp
  · simp only [h, if_false, Bool.false_eq_true]
    refine ⟨by omega, Or.inr ?_⟩
    simp

/-! ## Claim C10 — folder path is used verbatim -/

/-- C10 (confirmed): `save_svg_file` sanitizes only its filename
argument; the directory component of every returned path is
`output_dir/section_path` with `section_path` verbatim.  In particular a
raw breadcrumb label such as `"0. Customer Relationship Management
Processes"` — which sanitization would change — is used unchanged as the
directory. -/
theorem c10_folder_used_verbatim (outputDir : String) (ioOk : String → Bool)
    (st : CrawlerState) (svg folder filename : String) :
    (∀ p, (save_svg_file outputDir ioOk st svg folder filename).2 = some p →
      p = outputDir ++ "/" ++ folder ++ "/" ++ saveFileName filename) ∧
    sanitize_filename "0. Customer Relationship Management Processes" ≠
      "0. Customer Relationship Management Processes" ∧
    (save_svg_file "out" (fun _ => true) initCrawlerState "<svg/>"
        "0. Customer Relationship Management Processes" "Some Process").2 =
      some "out/0. Customer Relationship Management Processes/Some_Process.svg" := by
  refine ⟨?_, by decide, by decide⟩
  intro p hp
  unfold save_svg_file at hp
  by_cases h : ioOk (mkSavePath outputDir folder (saveFileName filename)) = true
  · simp only [h, if_true, Option.some.injEq] at hp
    exact hp.symm
  · simp only [h, if_false, Bool.false_eq_true] at hp
    simp at hp

/-- C10 witness: the verbatim-folder property at a concrete folder
containing a space, a slash and a period. -/
theorem c10_witness :
    "o/A B/C.D/n.svg" = "o" ++ "/" ++ "A B/C.D" ++ "/" ++ saveFileName "n" :=
  (c10_folder_used_verbatim "o" (fun _ => true) initCrawlerState "s" "A B/C.D" "n").1
    "o/A B/C.D/n.svg" (by decide)

/-! ## Run-log invariance of the extract-all path -/

theorem save_svg_file_log (outputDir : String) (ioOk : String → Bool)
    (st : CrawlerState) (svg folder filename : String) :
    (save_svg_file outputDir ioOk st svg folder filename).1.process_log = st.process_log := by
  unfold save_svg_file
  by_cases h : ioOk (mkSavePath outputDir folder (saveFileName filename)) = true <;> simp [h]

theorem extract_all_log (outputDir : String) (ioOk : String → Bool)
    (page_title section_name : String) (sub_section : Option String) :
    ∀ (svgs : List SVGFragment) (st : CrawlerState),
      (extract_all_svgs_from_page outputDir ioOk st page_title section_name sub_section
          svgs).process_log = st.process_log := by
  intro svgs
  induction svgs with
  | nil => intro st; rfl
  | cons f tl ih =>
    intro st
    have h1 : extract_all_svgs_from_page outputDir ioOk st page_title section_name sub_section
        (f :: tl) =
        extract_all_svgs_from_page outputDir ioOk
          (if is_process_map_svg f then
            (save_svg_file outputDir ioOk st f.content (joinFolder section_name sub_section)
              (sanitize_filename page_title ++ ".svg")).1
          else st)
          page_title section_name sub_section tl := rfl
    rw [h1, ih]
    by_cases hf : is_process_map_svg f = true
    · simp only [hf, if_true]
      exact save_svg_file_log _ _ _ _ _ _
    · simp only [hf, if_false, Bool.false_eq_true]

theorem foldl_extract_log (outputDir : String) (ioOk : String → Bool)
    (section_name : String) :
    ∀ (ps : List Page) (st : CrawlerState),
      (ps.foldl
          (fun s p =>
            extract_all_svgs_from_page outputDir ioOk s p.title section_name none p.svgs)
          st).process_log = st.process_log := by
  intro ps
  induction ps with
  | nil => intro st; rfl
  | cons p tl ih =>
    intro st
    rw [List.foldl_cons, ih, extract_all_log]

theorem crawl_section_log (outputDir : String) (ioOk : String → Bool)
    (sec : SectionInfo) (cap : Option Nat) (st : CrawlerState) :
    (crawl_section outputDir ioOk st sec cap).process_log = st.process_log := by
  unfold crawl_section
  rw [foldl_extract_log, extract_all_log]

theorem foldl_sections_log (outputDir : String) (ioOk : String → Bool) (cap : Option Nat) :
    ∀ (secs : List SectionInfo) (st : CrawlerState),
      (secs.foldl (fun s sec => crawl_section outputDir ioOk s sec cap) st).process_log =
        st.process_log := by
  intro secs
  induction secs with
  | nil => intro st; rfl
  | cons sec tl ih =>
    intro st
    rw [List.foldl_cons, ih, crawl_section_log]

/-! ## Claim C4 — drill-down logging granularity -/

/-- C4 (amended): the bounded drill-down strategies as implemented append
*no* LogEntry for any page-visit attempt — `run_sample_crawl` and
`run_full_crawl` route all extraction through
`extract_all_svgs_from_page`, which only saves files, so the persisted
`processes` list is empty; the once-per-page-visit-attempt behavior
exists only in `crawl_process_page` (one entry per call, `success` or
`no_svg`), which these strategies never invoke. -/
theorem c4_drill_down_logging (outputDir : String) (ioOk : String → Bool)
    (sections : List SectionInfo) (ms mp : Nat)
    (st : CrawlerState) (secTitle : String) (page : Page) (url : String) :
    (run_sample_crawl outputDir ioOk sections ms mp).2.processes = [] ∧
    (run_full_crawl outputDir ioOk sections).2.processes = [] ∧
    (crawl_process_page outputDir ioOk st secTitle page url).1.process_log.length =
      st.process_log.length + 1 := by
  refine ⟨?_, ?_, ?_⟩
  · show ((sections.take ms).foldl _ initCrawlerState).process_log = []
    rw [foldl_sections_log]
    rfl
  · show (sections.foldl _ initCrawlerState).process_log = []
    rw [foldl_sections_log]
    rfl
  · unfold crawl_process_page
    cases hx : extract_svg_from_page page.svgs with
    | some svg =>
      simp only []
      rw [List.length_append, save_svg_file_log]
      rfl
    | none =>
      simp only []
      rw [List.length_append]
      rfl

/-- C4 counterexample: a sample crawl over one section with one process
page attempts extraction on two pages (overview plus process page) and
does save two artifacts, yet appends zero LogEntries — not "exactly one
per page-visit attempt". -/
theorem c4_counterexample :
    (run_sample_crawl "out" (fun _ => true) [sectionC4] 3 2).2.processes.length = 0 ∧
    samplePagesAttempted [sectionC4] 3 2 = 2 ∧
    (run_sample_crawl "out" (fun _ => true) [sectionC4] 3 2).2.summary.extracted_count = 2 := by
  decide

/-! ## Claim C1 — report invariant -/

/-- C1 (amended): after every completed run of each traversal strategy
the persisted report satisfies
`summary.total_processed = len(processes)` — the reporter derives both
from the same in-memory log.  The claimed inequality
`extracted_count + failed_count ≤ total_processed` does *not* hold in
general, because the extract-all path updates the counters without ever
appending a log entry (see the counterexample). -/
theorem c1_report_total_processed (outputDir : String) (ioOk : String → Bool)
    (sections : List SectionInfo) (ms mp : Nat) (site : String → Option Page)
    (netlocOf : String → String) (baseUrl startUrl : String) (maxPages fuel : Nat) :
    ((run_sample_crawl outputDir ioOk sections ms mp).2.summary.total_processed =
      (run_sample_crawl outputDir ioOk sections ms mp).2.processes.length) ∧
    ((run_full_crawl outputDir ioOk sections).2.summary.total_processed =
      (run_full_crawl outputDir ioOk sections).2.processes.length) ∧
    ((crawl_entire_site outputDir ioOk site netlocOf baseUrl startUrl maxPages
          fuel).2.summary.total_processed =
      (crawl_entire_site outputDir ioOk site netlocOf baseUrl startUrl maxPages
          fuel).2.processes.length) ∧
    ((crawl_library_recursively outputDir ioOk site startUrl maxPages
          fuel).2.summary.total_processed =
      (crawl_library_recursively outputDir ioOk site startUrl maxPages
          fuel).2.processes.length) :=
  ⟨rfl, rfl, rfl, rfl⟩

/-- C1 counterexample: a completed library-recursive run (its queue is
exhausted) over a one-page site with one process-map fragment yields a
report with `extracted_count = 1`, `failed_count = 0` but
`total_processed = 0`, so the claimed conjunction fails — the saved
artifact never produced a log entry. -/
theorem c1_counterexample :
    (crawl_library_recursively "out" (fun _ => true) oneSiteLib "lib/start" 1000
        10).1.queue = [] ∧
    ¬ (((crawl_library_recursively "out" (fun _ => true) oneSiteLib "lib/start" 1000
            10).2.summary.total_processed =
        (crawl_library_recursively "out" (fun _ => true) oneSiteLib "lib/start" 1000
            10).2.processes.length) ∧
      (crawl_library_recursively "out" (fun _ => true) oneSiteLib "lib/start" 1000
            10).2.summary.extracted_count +
          (crawl_library_recursively "out" (fun _ => true) oneSiteLib "lib/start" 1000
            10).2.summary.failed_count ≤
        (crawl_library_recursively "out" (fun _ => true) oneSiteLib "lib/start" 1000
            10).2.summary.total_processed) := by decide

/-! ## Claim C3 — Strategy C storage path versus Path Resolver -/

/-- C3: evaluation of the code at the failing input.  A completed
library-recursive run over a page whose breadcrumb is
`["Library", "0. Customer Relationship Management Processes",
"Another Process"]` stores its artifact under the *raw* breadcrumb
elements — directory `0. Customer Relationship Management
Processes/Another Process` — whereas the Path Resolver
(`parse_section_from_breadcrumb`, which the repository's own tests
invoke as a crawler method) maps the same breadcrumb to section
`0_Customer_Relationship_Management_Processes`; the two disagree. -/
theorem c3_code_divergence :
    (crawl_library_recursively "out" (fun _ => true) oneSiteLibB "lib/startB" 1000
        10).1.queue = [] ∧
    ((crawl_library_recursively "out" (fun _ => true) oneSiteLibB "lib/startB" 1000
          10).1.crawler.saves.map Prod.fst =
      ["out/0. Customer Relationship Management Processes/Another Process/Another_Process.svg"]) ∧
    librarySectionOf onePageLibB.breadcrumb =
      ("0. Customer Relationship Management Processes", some "Another Process") ∧
    parse_section_from_breadcrumb onePageLibB.breadcrumb =
      ("0_Customer_Relationship_Management_Processes",
        some "Customer Relationship Management Processes") ∧
    librarySectionOf onePageLibB.breadcrumb ≠
      parse_section_from_breadcrumb onePageLibB.breadcrumb := by decide

/-! ## Frontier/Visited invariants of the BFS loops -/

theorem libEnqueueCond_not_mem {visited q : List String} {cur href : String}
    (h : libEnqueueCond visited q cur href = true) : href ∉ visited ∧ href ∉ q := by
  unfold libEnqueueCond at h
  simp only [Bool.and_eq_true, Bool.not_eq_true'] at h
  constructor
  · intro hm
    have h1 : visited.contains href = true := List.elem_iff.mpr hm
    rw [h.1.2] at h1
    exact Bool.false_ne_true h1
  · intro hm
    have h1 : q.contains href = true := List.elem_iff.mpr hm
    rw [h.2] at h1
    exact Bool.false_ne_true h1

theorem siteEnqueueCond_not_mem {netlocOf : String → String} {domain : String}
    {visited q : List String} {href : String}
    (h : siteEnqueueCond netlocOf domain visited q href = true) :
    href ∉ visited ∧ href ∉ q := by
  unfold siteEnqueueCond at h
  simp only [Bool.and_eq_true, Bool.not_eq_true'] at h
  constructor
  · intro hm
    have h1 : visited.contains href = true := List.elem_iff.mpr hm
    rw [h.1.2] at h1
    exact Bool.false_ne_true h1
  · intro hm
    have h1 : q.contains href = true := List.elem_iff.mpr hm
    rw [h.2] at h1
    exact Bool.false_ne_true h1

theorem append_singleton_inv {visited q : List String} {href : String}
    (hq : q.Nodup) (hdis : ∀ u ∈ q, u ∉ visited)
    (h1 : href ∉ visited) (h2 : href ∉ q) :
    (q ++ [href]).Nodup ∧ ∀ u ∈ q ++ [href], u ∉ visited := by
  constructor
  · exact List.nodup_append.mpr
      ⟨hq, List.nodup_singleton _, List.disjoint_singleton.mpr h2⟩
  · intro u hu
    rcases List.mem_append.mp hu with hu | hu
    · exact hdis u hu
    · rw [List.mem_singleton] at hu
      exact hu ▸ h1

theorem libProcessLink_inv (visited : List String) (cur : String)
    (q : List String) (href : String)
    (hq : q.Nodup) (hdis : ∀ u ∈ q, u ∉ visited) :
    (libProcessLink visited cur q href).Nodup ∧
      ∀ u ∈ libProcessLink visited cur q href, u ∉ visited := by
  unfold libProcessLink
  by_cases h : (href != "" && libEnqueueCond visited q cur href) = true
  · rw [if_pos h]
    have hc : libEnqueueCond visited q cur href = true :=
      ((Bool.and_eq_true _ _).mp h).2
    obtain ⟨h1, h2⟩ := libEnqueueCond_not_mem hc
    exact append_singleton_inv hq hdis h1 h2
  · rw [if_neg h]
    exact ⟨hq, hdis⟩

theorem siteProcessLink_inv (netlocOf : String → String) (domain : String)
    (visited : List String) (q : List String) (href : String)
    (hq : q.Nodup) (hdis : ∀ u ∈ q, u ∉ visited) :
    (siteProcessLink netlocOf domain visited q href).Nodup ∧
      ∀ u ∈ siteProcessLink netlocOf domain visited q href, u ∉ visited := by
  unfold siteProcessLink
  by_cases h : siteEnqueueCond netlocOf domain visited q href = true
  · rw [if_pos h]
    obtain ⟨h1, h2⟩ := siteEnqueueCond_not_mem h
    exact append_singleton_inv hq hdis h1 h2
  · rw [if_neg h]
    exact ⟨hq, hdis⟩

theorem foldl_links_inv (visited : List String)
    (step : List String → String → List String)
    (hstep : ∀ q href, q.Nodup → (∀ u ∈ q, u ∉ visited) →
      ((step q href).Nodup ∧ ∀ u ∈ step q href, u ∉ visited)) :
    ∀ (links : List String) (q : List String), q.Nodup → (∀ u ∈ q, u ∉ visited) →
      ((links.foldl step q).Nodup ∧ ∀ u ∈ links.foldl step q, u ∉ visited) := by
  intro links
  induction links with
  | nil => intro q h1 h2; exact ⟨h1, h2⟩
  | cons l tl ih =>
    intro q h1 h2
    rw [List.foldl_cons]
    have h3 := hstep q l h1 h2
    exact ih _ h3.1 h3.2

theorem libraryVisitPage_inv (outputDir : String) (ioOk : String → Bool)
    (site : String → Option Page) (st : BFSState) (url : String)
    (h : BFSInv st) : BFSInv (libraryVisitPage outputDir ioOk site st url) := by
  unfold libraryVisitPage
  cases site url with
  | none => exact h
  | some page =>
    obtain ⟨hv, hq, hd⟩ := h
    have h3 := foldl_links_inv st.visited
      (fun q href => libProcessLink st.visited url q href)
      (fun q href h1 h2 => libProcessLink_inv st.visited url q href h1 h2)
      page.links st.queue hq hd
    exact ⟨hv, h3.1, h3.2⟩

theorem siteVisitPage_inv (outputDir : String) (ioOk : String → Bool)
    (site : String → Option Page) (netlocOf : String → String) (domain : String)
    (st : BFSState) (url : String)
    (h : BFSInv st) : BFSInv (siteVisitPage outputDir ioOk site netlocOf domain st url) := by
  unfold siteVisitPage
  cases site url with
  | none => exact h
  | some page =>
    obtain ⟨hv, hq, hd⟩ := h
    have h3 := foldl_links_inv st.visited
      (fun q href => siteProcessLink netlocOf domain st.visited q href)
      (fun q href h1 h2 => siteProcessLink_inv netlocOf domain st.visited q href h1 h2)
      page.links st.queue hq hd
    exact ⟨hv, h3.1, h3.2⟩

theorem bfsStep_inv (maxPages : Nat) (visit : BFSState → String → BFSState)
    (hvisit : ∀ st url, BFSInv st → BFSInv (visit st url))
    (st st2 : BFSState) (h : bfsStep maxPages visit st = some st2)
    (hinv : BFSInv st) : BFSInv st2 := by
  unfold bfsStep at h
  cases hq : st.queue with
  | nil =>
    rw [hq] at h
    replace h : (none : Option BFSState) = some st2 := h
    exact absurd h (by simp)
  | cons url rest =>
    rw [hq] at h
    replace h : (if st.page_count < maxPages then
        some (if st.visited.contains url then { st with queue := rest }
          else visit { st with queue := rest, visited := st.visited ++ [url] } url)
      else none) = some st2 := h
    by_cases hpc : st.page_count < maxPages
    · rw [if_pos hpc] at h
      simp only [Option.some.injEq] at h
      obtain ⟨hv, hqn, hd⟩ := hinv
      rw [hq] at hqn hd
      have hrest : rest.Nodup := (List.nodup_cons.mp hqn).2
      have hurlrest : url ∉ rest := (List.nodup_cons.mp hqn).1
      have hdrest : ∀ u ∈ rest, u ∉ st.visited :=
        fun u hu => hd u (List.mem_cons_of_mem _ hu)
      by_cases hvis : st.visited.contains url = true
      · rw [if_pos hvis] at h
        subst h
        exact ⟨hv, hrest, hdrest⟩
      · rw [if_neg hvis] at h
        subst h
        apply hvisit
        have hnv : url ∉ st.visited := fun hm => hvis (List.elem_iff.mpr hm)
        refine ⟨?_, hrest, ?_⟩
        · exact List.nodup_append.mpr
            ⟨hv, List.nodup_singleton _, List.disjoint_singleton.mpr hnv⟩
        · intro u hu hmem
          rcases List.mem_append.mp hmem with h1 | h1
          · exact hdrest u hu h1
          · rw [List.mem_singleton] at h1
            exact hurlrest (h1 ▸ hu)
    · rw [if_neg hpc] at h
      exact absurd h (by simp)

theorem bfsLoop_succ (maxPages : Nat) (visit : BFSState → String → BFSState)
    (fuel : Nat) (st : BFSState) :
    bfsLoop maxPages visit (fuel + 1) st =
      match bfsStep maxPages visit st with
      | none => st
      | some st2 => bfsLoop maxPages visit fuel st2 := rfl

theorem bfsLoop_inv (maxPages : Nat) (visit : BFSState → String → BFSState)
    (hvisit : ∀ st url, BFSInv st → BFSInv (visit st url)) :
    ∀ (fuel : Nat) (st : BFSState), BFSInv st → BFSInv (bfsLoop maxPages visit fuel st) := by
  intro fuel
  induction fuel with
  | zero => intro st h; exact h
  | succ f ih =>
    intro st h
    rw [bfsLoop_succ]
    cases hs : bfsStep maxPages visit st with
    | none => exact h
    | some st2 => exact ih st2 (bfsStep_inv maxPages visit hvisit st st2 hs h)

theorem initial_BFSInv (startUrl : String) :
    BFSInv ⟨initCrawlerState, [], [startUrl], 0⟩ := by
  refine ⟨List.nodup_nil, List.nodup_singleton _, ?_⟩
  intro u _
  exact List.not_mem_nil u

/-! ## Claim C5 — no duplicate visit, no duplicate enqueue -/

/-- C5 (confirmed): for every run of Strategy B (`crawl_entire_site`) and
Strategy C (`crawl_library_recursively`), the final traversal state
satisfies: the visited sequence (one entry per navigation) holds each
URL at most once, the frontier holds no duplicates, and no frontier URL
is in Visited.  Moreover a link-processing step of either strategy only
ever appends a URL that is in neither Visited nor the current frontier
(no duplicate enqueue). -/
theorem c5_no_duplicate_visit (outputDir : String) (ioOk : String → Bool)
    (site : String → Option Page) (netlocOf : String → String)
    (baseUrl startUrl : String) (maxPages fuel : Nat) :
    BFSInv (crawl_entire_site outputDir ioOk site netlocOf baseUrl startUrl maxPages fuel).1 ∧
    BFSInv (crawl_library_recursively outputDir ioOk site startUrl maxPages fuel).1 ∧
    (∀ (visited q : List String) (cur href : String),
      libProcessLink visited cur q href ≠ q →
        href ∉ visited ∧ href ∉ q ∧ libProcessLink visited cur q href = q ++ [href]) ∧
    (∀ (domain : String) (visited q : List String) (href : String),
      siteProcessLink netlocOf domain visited q href ≠ q →
        href ∉ visited ∧ href ∉ q ∧
          siteProcessLink netlocOf domain visited q href = q ++ [href]) := by
  refine ⟨?_, ?_, ?_, ?_⟩
  · exact bfsLoop_inv maxPages _
      (fun st url h => siteVisitPage_inv outputDir ioOk site netlocOf (netlocOf baseUrl) st url h)
      fuel _ (initial_BFSInv startUrl)
  · exact bfsLoop_inv maxPages _
      (fun st url h => libraryVisitPage_inv outputDir ioOk site st url h)
      fuel _ (initial_BFSInv startUrl)
  · intro visited q cur href hne
    unfold libProcessLink at hne ⊢
    by_cases h : (href != "" && libEnqueueCond visited q cur href) = true
    · rw [if_pos h]
      have hc : libEnqueueCond visited q cur href = true :=
        ((Bool.and_eq_true _ _).mp h).2
      obtain ⟨h1, h2⟩ := libEnqueueCond_not_mem hc
      exact ⟨h1, h2, rfl⟩
    · rw [if_neg h] at hne
      exact absurd rfl hne
  · intro domain visited q href hne
    unfold siteProcessLink at hne ⊢
    by_cases h : siteEnqueueCond netlocOf domain visited q href = true
    · rw [if_pos h]
      obtain ⟨h1, h2⟩ := siteEnqueueCond_not_mem h
      exact ⟨h1, h2, rfl⟩
    · rw [if_neg h] at hne
      exact absurd rfl hne

/-- C5 witness: the invariant at the end of two concrete runs. -/
theorem c5_witness :
    BFSInv (crawl_entire_site "out" (fun _ => true) oneSiteLib (fun _ => "d") "base"
        "lib/start" 1000 10).1 ∧
    BFSInv (crawl_library_recursively "out" (fun _ => true) oneSiteLib "lib/start" 1000
        10).1 :=
  ⟨(c5_no_duplicate_visit "out" (fun _ => true) oneSiteLib (fun _ => "d") "base"
      "lib/start" 1000 10).1,
    (c5_no_duplicate_visit "out" (fun _ => true) oneSiteLib (fun _ => "d") "base"
      "lib/start" 1000 10).2.1⟩

/-! ## Fuel adequacy of the loop embedding -/

theorem bfsStep_none_of_done (maxPages : Nat) (visit : BFSState → String → BFSState)
    (st : BFSState) (h : bfsDone maxPages st) : bfsStep maxPages visit st = none := by
  rcases h with h | h
  · unfold bfsStep
    rw [h]
  · unfold bfsStep
    cases hq : st.queue with
    | nil => rfl
    | cons url rest =>
      show (if st.page_count < maxPages then
          some (if st.visited.contains url then { st with queue := rest }
            else visit { st with queue := rest, visited := st.visited ++ [url] } url)
        else none) = none
      rw [if_neg (Nat.not_lt.mpr h)]

theorem bfsLoop_done (maxPages : Nat) (visit : BFSState → String → BFSState)
    (fuel : Nat) (st : BFSState) (h : bfsDone maxPages st) :
    bfsLoop maxPages visit fuel st = st := by
  cases fuel with
  | zero => rfl
  | succ f => rw [bfsLoop_succ, bfsStep_none_of_done maxPages visit st h]

/-- A run of the loop that has reached the loop's real exit condition is
unchanged by additional fuel: the fuel parameter of the embedding is
irrelevant for any concrete run whose final state satisfies `bfsDone`. -/
theorem bfsLoop_fuel_stable (maxPages : Nat) (visit : BFSState → String → BFSState) :
    ∀ (fuel : Nat) (st : BFSState), bfsDone maxPages (bfsLoop maxPages visit fuel st) →
      bfsLoop maxPages visit (fuel + 1) st = bfsLoop maxPages visit fuel st := by
  intro fuel
  induction fuel with
  | zero =>
    intro st h
    exact bfsLoop_done maxPages visit 1 st h
  | succ f ih =>
    intro st h
    cases hs : bfsStep maxPages visit st with
    | none => rw [bfsLoop_succ, hs, bfsLoop_succ, hs]
    | some st2 =>
      have h2 : bfsDone maxPages (bfsLoop maxPages visit f st2) := by
        rw [bfsLoop_succ, hs] at h
        exact h
      rw [bfsLoop_succ, hs, bfsLoop_succ, hs]
      exact ih st2 h2

/-! ## Claim C7 — Strategy C enqueue filter -/

theorem contains_eq_false_of_not_mem {l : List String} {a : String} (h : a ∉ l) :
    l.contains a = false := by
  cases hc : l.contains a with
  | false => rfl
  | true => exact absurd (List.elem_iff.mp hc) h

/-- C7 (amended): in the library-scoped crawl a discovered truthy link is
enqueued iff it is in neither Visited nor the frontier and either its
href contains a library- or content-area marker (`/Library` or
`/Content/`) or it starts with the URL at the *front* of the live
frontier — `queue[0]`, the next URL to be dequeued, with the current
page URL as fallback when the frontier is empty — not the
most-recently-enqueued frontier URL. -/
theorem c7_enqueue_iff (visited q : List String) (cur href : String)
    (hne : href ≠ "") :
    href ∈ libProcessLink visited cur q href ↔
      (href ∈ q ∨
        ((containsSub "/Library".data href.data = true ∨
            containsSub "/Content/".data href.data = true ∨
            pyStartsWith href (match q with | [] => cur | q0 :: _ => q0) = true) ∧
          href ∉ visited ∧ href ∉ q)) := by
  have hne' : (href != "") = true := bne_iff_ne.mpr hne
  unfold libProcessLink
  rw [hne', Bool.true_and]
  split_ifs with hcnd
  · obtain ⟨h1, h2⟩ := libEnqueueCond_not_mem hcnd
    have hcond := hcnd
    unfold libEnqueueCond at hcond
    simp only [Bool.and_eq_true, Bool.or_eq_true] at hcond
    simp only [List.mem_append, List.mem_singleton]
    constructor
    · intro _
      refine Or.inr ⟨?_, h1, h2⟩
      rcases hcond.1.1 with (hm | hm) | hm
      · exact Or.inl hm
      · exact Or.inr (Or.inl hm)
      · exact Or.inr (Or.inr hm)
    · intro _
      exact Or.inr trivial
  · constructor
    · exact Or.inl
    · rintro (hm | ⟨hdisj, hnv, hnq⟩)
      · exact hm
      · exfalso
        apply hcnd
        unfold libEnqueueCond
        simp only [Bool.and_eq_true, Bool.or_eq_true, Bool.not_eq_true']
        refine ⟨⟨?_, contains_eq_false_of_not_mem hnv⟩, contains_eq_false_of_not_mem hnq⟩
        rcases hdisj with hm | hm | hm
        · exact Or.inl (Or.inl hm)
        · exact Or.inl (Or.inr hm)
        · exact Or.inr hm

/-- C7 counterexample: with frontier `["A/", "B/"]` the discovered link
`"B/x"` starts with the most-recently-enqueued frontier URL `"B/"`,
carries no library/content marker, and is in neither Visited nor the
frontier, so per the claim it must be enqueued; the code leaves the
frontier unchanged because it compares against `queue[0] = "A/"`. -/
theorem c7_counterexample :
    (libraryVisitPage "out" (fun _ => true) siteC7 stateC7 "hub").queue = ["A/", "B/"] ∧
    linkPageC7.links = ["B/x"] ∧
    specLibEnqueueCond stateC7.visited stateC7.queue "hub" "B/x" = true := by decide

/-- C7 witness: the amended characterization applied at a concrete link
that does get enqueued via the queue-front prefix test. -/
theorem c7_witness : "lib/x" ∈ libProcessLink [] "lib/" [] "lib/x" :=
  (c7_enqueue_iff [] [] "lib/" "lib/x" (by decide)).mpr
    (Or.inr ⟨Or.inr (Or.inr (by decide)), by decide, by decide⟩)


end SvgCrawler
